import Mathlib

/-!
# Verification of `train_mitoses.py`

A shallow embedding of the mitosis-detection training script: the label/sample
codec (`get_label`, `normalize`, `preprocess`), the resettable metric
(`create_reset_metric` instantiated at `tf.metrics.mean`), the precision/recall
accumulators and the derived `f1` expression, the model-assembly/optimizer
section (layer freezing and gradient variable lists), and the two-phase
training controller loop (train pass, validation pass, checkpointing, resume).

Machine floats are modelled by exact rationals; the float NaN produced by a
zero-denominator division is modelled by `Option.none`.  Randomness (shuffling,
random flips) and the forward-pass numerics of the external Keras backbones are
abstracted as explicit parameters.
-/

namespace TrainMitoses

/-! ## Label codec: `get_label` (train_mitoses.py lines 19-40)

`tf.string_split([filename], "/")` splits on the slash and drops empty
tokens; `splits.values[-2]` is the second-to-last token.  The `tf.Assert`
raises an InvalidArgumentError at `sess.run` time when the token is neither
"normal" nor "mitosis"; the embedded function returns `Except.error` there. -/

def splitOnChar (c : Char) : List Char → List (List Char)
  | [] => [[]]
  | a :: rest =>
    let r := splitOnChar c rest
    if a = c then [] :: r
    else
      match r with
      | [] => [[a]]
      | t :: ts => (a :: t) :: ts

def pathTokens (filename : String) : List String :=
  ((splitOnChar '/' filename.data).map (fun cs => String.mk cs)).filter (fun t => ¬ t = "")

def get_label (filename : String) : Except String ℚ :=
  match (pathTokens filename).reverse with
  | _ :: label_str :: _ =>
    if label_str = "normal" ∨ label_str = "mitosis" then
      Except.ok (if label_str = "mitosis" then 1 else 0)
    else
      Except.error ("assertion failed: " ++ label_str)
  | _ => Except.error "index out of range"

/-! ## Images and `normalize` (lines 88-106)

An image is a list of rows of pixels; a pixel is its list of channel values.
`image[..., ::-1]` reverses the channel axis; subtracting the 3-element mean
list broadcasts over the channel axis, i.e. `zipWith` on each pixel. -/

abbrev Pixel := List ℚ

abbrev Image := List (List Pixel)

def mapPixels (f : ℚ → ℚ) (image : Image) : Image :=
  image.map (List.map (List.map f))

def imagenetMeans : Pixel := [103939/1000, 116779/1000, 12368/100]

def normalize (image : Image) (model_name : String) : Image :=
  if model_name = "vgg" ∨ model_name = "resnet" then
    let image := mapPixels (fun x => x * 255) image
    let image := image.map (List.map List.reverse)
    image.map (List.map (fun px => px.zipWith (fun a m => a - m) imagenetMeans))
  else
    let image := mapPixels (fun x => x - 1/2) image
    mapPixels (fun x => x * 2) image

/-! ## Augmentation and `preprocess` (lines 63-85, 109-127)

The two random flip decisions of `augment` are passed in explicitly; image
decoding (`get_image`, external file IO plus JPEG decode) is abstracted as a
`decode` parameter. -/

def augmentImage (flip_ud flip_lr : Bool) (image : Image) : Image :=
  let image := if flip_ud then image.reverse else image
  if flip_lr then image.map List.reverse else image

def clipImage01 (image : Image) : Image :=
  mapPixels (fun x => max 0 (min 1 x)) image

def preprocessImage (decode : String → Image) (filename : String)
    (augmentation : Bool) (model_name : String) (flip_ud flip_lr : Bool) : Image :=
  let image := decode filename
  let image := if augmentation then clipImage01 (augmentImage flip_ud flip_lr image) else image
  normalize image model_name

/-- The map applied to the training source (line 248): the configured
`augmentation` flag is passed through. -/
def trainDatasetMap (decode : String → Image) (augmentation : Bool)
    (model_name filename : String) (flip_ud flip_lr : Bool) : Image :=
  preprocessImage decode filename augmentation model_name flip_ud flip_lr

/-- The map applied to the validation source (line 252): the augmentation
argument is the literal `False`. -/
def valDatasetMap (decode : String → Image)
    (model_name filename : String) (flip_ud flip_lr : Bool) : Image :=
  preprocessImage decode filename false model_name flip_ud flip_lr

/-! ## Resettable metric (lines 130-148) at `tf.metrics.mean`

`tf.metrics.mean` keeps local variables `total` and `count`; its update op
adds the batch sum and the batch size, and the value is the safe division
`total / count` (0 when `count` is 0).  `reset_op` re-initializes both local
variables to zero. -/

structure MeanMetric where
  total : ℚ
  count : ℚ
deriving DecidableEq

def MeanMetric.value (m : MeanMetric) : ℚ :=
  if m.count = 0 then 0 else m.total / m.count

def MeanMetric.update (m : MeanMetric) (batch : List ℚ) : MeanMetric × ℚ :=
  let m2 : MeanMetric := { total := m.total + batch.sum, count := m.count + batch.length }
  (m2, m2.value)

def MeanMetric.reset : MeanMetric := { total := 0, count := 0 }

/-! ## Precision, recall and the derived `f1` (lines 388-392)

`tf.metrics.precision` accumulates true/false positive counts and reads
`tp / (tp + fp)` guarded to 0 when the denominator is 0; similarly recall.
`f1 = 2 * (ppv * sens) / (ppv + sens)` is a graph expression over the two
current metric values; with float arithmetic a zero denominator (both metric
values zero) gives NaN, modelled here as `none`. -/

structure PrecisionState where
  tp : ℚ
  fp : ℚ
deriving DecidableEq

def PrecisionState.value (s : PrecisionState) : ℚ :=
  if 0 < s.tp + s.fp then s.tp / (s.tp + s.fp) else 0

def PrecisionState.update (s : PrecisionState) (labels preds : List Bool) : PrecisionState :=
  { tp := s.tp + ((labels.zip preds).filter (fun lp => lp.1 && lp.2)).length,
    fp := s.fp + ((labels.zip preds).filter (fun lp => !lp.1 && lp.2)).length }

structure RecallState where
  tp : ℚ
  fneg : ℚ
deriving DecidableEq

def RecallState.value (s : RecallState) : ℚ :=
  if 0 < s.tp + s.fneg then s.tp / (s.tp + s.fneg) else 0

def RecallState.update (s : RecallState) (labels preds : List Bool) : RecallState :=
  { tp := s.tp + ((labels.zip preds).filter (fun lp => lp.1 && lp.2)).length,
    fneg := s.fneg + ((labels.zip preds).filter (fun lp => lp.1 && !lp.2)).length }

/-- Float division: `none` models the non-finite result produced when the
denominator is zero (NaN here, since every reachable numerator is then 0). -/
def floatDiv (a b : ℚ) : Option ℚ :=
  if b = 0 then none else some (a / b)

def f1 (ppv sens : ℚ) : Option ℚ :=
  floatDiv (2 * (ppv * sens)) (ppv + sens)

/-- The per-epoch scalar summary record (lines 428-434): loss, acc, ppv, sens
and f1 are written as-is, f1 included even when it is the NaN sentinel. -/
def epochScalars (p : PrecisionState) (r : RecallState) (loss acc : ℚ) :
    List (String × Option ℚ) :=
  [("loss", some loss), ("acc", some acc), ("ppv", some p.value),
   ("sens", some r.value), ("f1", f1 p.value r.value)]

/-! ## Model assembly and the optimizer section (lines 271-380)

A Keras layer is modelled by its weight identifiers and its `trainable` flag;
`model.trainable_weights` collects the weights of trainable layers in order.
The graph section at lines 356-380 first freezes every `model_base` layer and
captures the classifier gradient variable list, then (if `finetune_layers > 0`)
unfreezes the last `finetune_layers` base layers and captures the fine-tune
gradient variable list.  The new dense head is never frozen. -/

structure Layer where
  wts : List Nat
  trainable : Bool
deriving DecidableEq

def trainableWeights (layers : List Layer) : List Nat :=
  (layers.filter (fun l => l.trainable)).flatMap (fun l => l.wts)

def wtsOf (layers : List Layer) : List Nat :=
  layers.flatMap (fun l => l.wts)

structure OptimOps where
  clf_vars : List Nat
  finetune_vars : List Nat
deriving DecidableEq

def buildOptim (model_base_layers : List Layer) (head : Layer)
    (finetune_layers : Nat) : OptimOps :=
  -- classifier: freeze all pre-trained model layers (lines 359-360)
  let base := model_base_layers.map (fun l => { l with trainable := false })
  -- var_list=model.trainable_weights captured here (line 362)
  let clf_vars := trainableWeights (base ++ [head])
  -- finetuning: unfreeze the last finetune_layers base layers (lines 372-374)
  let base2 :=
    if 0 < finetune_layers then
      base.take (base.length - finetune_layers)
        ++ (base.drop (base.length - finetune_layers)).map
            (fun l => { l with trainable := true })
    else base
  -- var_list=model.trainable_weights captured again (line 376)
  let finetune_vars := trainableWeights (base2 ++ [head])
  { clf_vars := clf_vars, finetune_vars := finetune_vars }

/-- `opt.apply_gradients` on a captured variable list: each variable in the
list receives its gradient-based increment, every other variable is
untouched. -/
def applyGradients (var_list : List Nat) (delta : Nat → ℚ) (w : Nat → ℚ) : Nat → ℚ :=
  fun v => if v ∈ var_list then w v + delta v else w v

/-! ## The model section dispatch (lines 272-326)

Graph construction order inside `train`: the `data` name scope (lines 244-269)
builds the dataset, iterator and `images`/`labels`/`filenames` tensors first;
only then does the `model` name scope dispatch on `model_name`, raising
`Exception("model name unknown: ...")` in the final `else` branch. -/

inductive GraphEvent where
  | dataTensors
  | modelTensors (model_name : String)
  | configError (msg : String)
deriving DecidableEq

def modelSection (model_name : String) : Except String String :=
  if model_name = "logreg" then Except.ok "logreg"
  else if model_name = "vgg" then Except.ok "vgg"
  else if model_name = "resnet" then Except.ok "resnet"
  else Except.error ("model name unknown: " ++ model_name)

def trainGraphEvents (model_name : String) : List GraphEvent :=
  [GraphEvent.dataTensors] ++
    (match modelSection model_name with
     | Except.ok m => [GraphEvent.modelTensors m]
     | Except.error e => [GraphEvent.configError e])

/-! ## The training controller loop (lines 446-522)

The loop state carries the two Python counters, the TF weight and optimizer
variables (abstracted as valuations on variable identifiers), one
representative resettable metric accumulator, and the list of persisted
`(global_step, global_epoch)` pickles.  The forward/backward numerics are
abstracted in `Dynamics`: `grad`/`optDelta` give the increments a training
step applies at a given `global_step`, and `batchMetrics` gives the metric
values a forward pass produces from the current weights, the learning-phase
flag (`true` = training mode, fed as 1; `false` fed as 0) and the batch
index within the pass. -/

structure LoopCfg where
  clf_epochs : Nat
  finetune_epochs : Nat
  num_train_batches : Nat
  num_val_batches : Nat
  checkpoint : Bool

structure Dynamics where
  grad : Nat → Nat → ℚ
  optDelta : Nat → Nat → ℚ
  batchMetrics : (Nat → ℚ) → Bool → Nat → List ℚ

structure LoopState where
  global_step : Nat
  global_epoch : Nat
  weights : Nat → ℚ
  optState : Nat → ℚ
  metrics : MeanMetric
  saved : List (Nat × Nat)

/-- One training iteration (lines 464-476):
`sess.run([train_op, metric_update_ops], feed_dict={learning_phase: 1})`
followed by `global_step += 1`. -/
def trainBatch (dyn : Dynamics) (var_list : List Nat) (bi : Nat)
    (s : LoopState) : LoopState :=
  { s with
    weights := applyGradients var_list (dyn.grad s.global_step) s.weights,
    optState := fun v =>
      if v ∈ var_list then s.optState v + dyn.optDelta s.global_step v else s.optState v,
    metrics := (s.metrics.update (dyn.batchMetrics s.weights true bi)).1,
    global_step := s.global_step + 1 }

/-- One validation iteration (lines 489-498):
`sess.run(metric_update_ops, feed_dict={learning_phase: 0})`; only the local
step counter `vi` advances, and it is not part of the persistent state. -/
def valBatch (dyn : Dynamics) (vi : Nat) (s : LoopState) : LoopState :=
  { s with metrics := (s.metrics.update (dyn.batchMetrics s.weights false vi)).1 }

/-- The training pass of one epoch (lines 463-484): iterate over the training
source until end-of-stream, then read/log the epoch aggregates and run
`metric_reset_ops`. -/
def trainPass (cfg : LoopCfg) (dyn : Dynamics) (var_list : List Nat)
    (s : LoopState) : LoopState :=
  let s := (List.range cfg.num_train_batches).foldl
    (fun st bi => trainBatch dyn var_list bi st) s
  { s with metrics := MeanMetric.reset }

/-- The validation pass of one epoch (lines 487-506): iterate over the
validation source until end-of-stream, then read/log the epoch aggregates and
run `metric_reset_ops`. -/
def valPass (cfg : LoopCfg) (dyn : Dynamics) (s : LoopState) : LoopState :=
  let s := (List.range cfg.num_val_batches).foldl
    (fun st vi => valBatch dyn vi st) s
  { s with metrics := MeanMetric.reset }

/-- One epoch of the inner loop (lines 462-522): train pass, validation pass,
`global_epoch += 1`, and, when checkpointing is enabled, persistence of the
`(global_step, global_epoch)` pickle (lines 514-521). -/
def epochBody (cfg : LoopCfg) (dyn : Dynamics) (var_list : List Nat)
    (s : LoopState) : LoopState :=
  let s := trainPass cfg dyn var_list s
  let s := valPass cfg dyn s
  let s := { s with global_epoch := s.global_epoch + 1 }
  if cfg.checkpoint then
    { s with saved := s.saved ++ [(s.global_step, s.global_epoch)] }
  else s

/-- One phase of the outer loop (line 461):
`for _ in range(global_epoch, global_epoch+epochs)`.  The bounds are read
once, at phase entry, from the current `global_epoch`; the loop variable is
discarded. -/
def runPhase (cfg : LoopCfg) (dyn : Dynamics) (var_list : List Nat)
    (epochs : Nat) (s : LoopState) : LoopState :=
  (List.range' s.global_epoch epochs).foldl
    (fun st _ => epochBody cfg dyn var_list st) s

/-- The combined two-phase loop (line 460). -/
def trainLoop (cfg : LoopCfg) (dyn : Dynamics)
    (clf_vars finetune_vars : List Nat) (s : LoopState) : LoopState :=
  runPhase cfg dyn finetune_vars cfg.finetune_epochs
    (runPhase cfg dyn clf_vars cfg.clf_epochs s)

/-- The resume branch (lines 454-457): `saver.restore` re-installs the
persisted weight and optimizer variables, then the pickle supplies the
`(global_step, global_epoch)` tuple. -/
def resume (w o : Nat → ℚ) (ckpt : Nat × Nat) (s : LoopState) : LoopState :=
  { s with weights := w, optState := o,
           global_step := ckpt.1, global_epoch := ckpt.2 }

/-- The freshly initialized state produced by `initialize_variables`
(lines 151-195): both counters start at 0. -/
def freshState (w o : Nat → ℚ) : LoopState :=
  { global_step := 0, global_epoch := 0, weights := w, optState := o,
    metrics := MeanMetric.reset, saved := [] }

/-! ## Concrete instances used for evaluation -/

/-- A small backbone: three layers with one weight each, trainable on
construction (Keras default). -/
def demoLayers : List Layer :=
  [{ wts := [0], trainable := true }, { wts := [1], trainable := true },
   { wts := [2], trainable := true }]

/-- The new dense head: one layer holding weight 3, always trainable. -/
def demoHead : Layer := { wts := [3], trainable := true }

def zeroW : Nat → ℚ := fun _ => 0

/-- An empty precision accumulator. -/
def demoP : PrecisionState := { tp := 0, fp := 0 }

/-- An empty recall accumulator. -/
def demoR : RecallState := { tp := 0, fneg := 0 }

/-- One epoch per phase, one train and one validation batch per epoch,
checkpointing enabled. -/
def demoCfg : LoopCfg :=
  { clf_epochs := 1, finetune_epochs := 1, num_train_batches := 1,
    num_val_batches := 1, checkpoint := true }

/-- Inert dynamics: zero gradients, a single 0-valued metric observation per
batch.  Sufficient for evaluating the counter bookkeeping of the loop. -/
def zeroDyn : Dynamics :=
  { grad := fun _ _ => 0, optDelta := fun _ _ => 0,
    batchMetrics := fun _ _ _ => [0] }

/-- clf_epochs=2, finetune_epochs=0, one train and one validation batch per
epoch, checkpointing enabled. -/
def c1Cfg : LoopCfg :=
  { clf_epochs := 2, finetune_epochs := 0, num_train_batches := 1,
    num_val_batches := 1, checkpoint := true }

/-- The state after the original run cleanly exits having completed exactly
one epoch (with its checkpoint written). -/
def c1AfterOne : LoopState := epochBody c1Cfg zeroDyn [] (freshState zeroW zeroW)

/-- The state at the start of the resumed run: fresh graph, then
`saver.restore` plus the unpickled `(global_step, global_epoch)`. -/
def c1Resumed : LoopState :=
  resume c1AfterOne.weights c1AfterOne.optState
    (c1AfterOne.global_step, c1AfterOne.global_epoch) (freshState zeroW zeroW)

/-! ## Theorems -/

/-- C3: the resettable metric follows accumulate-then-divide semantics:
`update` folds each batch into the running (sum, count) pair and returns
sum/count over all observations since the last reset, not a batch-local
average.  For the mean metric, updates with batches [1,0,0,0], [1,0,0,0],
[0,0,0,0] yield aggregates 1/4, 1/4, 1/6; after `reset()` the updates
[0,0,0,0] then [1,0,0,0] yield 0 then 1/8. -/
theorem resettable_metric_accumulates :
    (MeanMetric.reset.update [1,0,0,0]).2 = 1/4
    ∧ ((MeanMetric.reset.update [1,0,0,0]).1.update [1,0,0,0]).2 = 1/4
    ∧ (((MeanMetric.reset.update [1,0,0,0]).1.update [1,0,0,0]).1.update [0,0,0,0]).2 = 1/6
    ∧ (MeanMetric.reset.update [0,0,0,0]).2 = 0
    ∧ ((MeanMetric.reset.update [0,0,0,0]).1.update [1,0,0,0]).2 = 1/8 := by
  refine ⟨?_, ?_, ?_, ?_, ?_⟩ <;>
    norm_num [MeanMetric.update, MeanMetric.value, MeanMetric.reset]

/-- C4: `get_label` returns 1.0 when the second-to-last path segment is
"mitosis", 0.0 when it is "normal", and fails with an invalid-input error
(the failing `tf.Assert`) for any other token, rather than returning a
default label. -/
theorem get_label_by_class_token (filename p0 label_str : String) (rest : List String)
    (h : (pathTokens filename).reverse = p0 :: label_str :: rest) :
    (label_str = "mitosis" → get_label filename = Except.ok 1)
    ∧ (label_str = "normal" → get_label filename = Except.ok 0)
    ∧ (label_str ≠ "mitosis" → label_str ≠ "normal" →
        get_label filename = Except.error ("assertion failed: " ++ label_str)) := by
  refine ⟨fun h1 => ?_, fun h1 => ?_, fun h1 h2 => ?_⟩ <;>
    · unfold get_label
      rw [h]
      simp [h1]
      try simp [h2]

theorem get_label_by_class_token_witness :
    (pathTokens "train/mitosis/1_03_05_713_348.jpg").reverse
      = ["1_03_05_713_348.jpg", "mitosis", "train"]
    ∧ get_label "train/mitosis/1_03_05_713_348.jpg" = Except.ok 1 :=
  ⟨by decide,
   (get_label_by_class_token "train/mitosis/1_03_05_713_348.jpg"
      "1_03_05_713_348.jpg" "mitosis" ["train"] (by decide)).1 rfl⟩

/-- C5: for a 3-channel image with values in [0,1], `normalize` with an
ImageNet-style backbone kind ("vgg" or "resnet") scales to [0,255], reverses
the channel order (RGB to BGR) and subtracts the per-channel means
(103.939, 116.779, 123.68); for every other backbone kind it returns
(x - 0.5) * 2, whose values lie in [-1,1]. -/
theorem normalize_branches (model_name : String) (r g b : ℚ)
    (h0r : 0 ≤ r) (h1r : r ≤ 1) (h0g : 0 ≤ g) (h1g : g ≤ 1)
    (h0b : 0 ≤ b) (h1b : b ≤ 1) :
    normalize [[[r, g, b]]] model_name =
      (if model_name = "vgg" ∨ model_name = "resnet" then
        [[[b * 255 - 103939/1000, g * 255 - 116779/1000, r * 255 - 12368/100]]]
      else [[[(r - 1/2) * 2, (g - 1/2) * 2, (b - 1/2) * 2]]])
    ∧ (¬(model_name = "vgg" ∨ model_name = "resnet") →
        (-1 ≤ (r - 1/2) * 2 ∧ (r - 1/2) * 2 ≤ 1)
        ∧ (-1 ≤ (g - 1/2) * 2 ∧ (g - 1/2) * 2 ≤ 1)
        ∧ (-1 ≤ (b - 1/2) * 2 ∧ (b - 1/2) * 2 ≤ 1)) := by
  constructor
  · by_cases hm : model_name = "vgg" ∨ model_name = "resnet" <;>
      simp [normalize, mapPixels, imagenetMeans, hm]
  · intro hm
    refine ⟨⟨?_, ?_⟩, ⟨?_, ?_⟩, ⟨?_, ?_⟩⟩ <;> linarith

theorem normalize_branches_witness :
    normalize [[[(0:ℚ), 0, 0]]] "logreg" =
      (if "logreg" = "vgg" ∨ "logreg" = "resnet" then
        [[[(0:ℚ) * 255 - 103939/1000, 0 * 255 - 116779/1000, 0 * 255 - 12368/100]]]
      else [[[((0:ℚ) - 1/2) * 2, (0 - 1/2) * 2, (0 - 1/2) * 2]]])
    ∧ (¬("logreg" = "vgg" ∨ "logreg" = "resnet") →
        (-1 ≤ ((0:ℚ) - 1/2) * 2 ∧ ((0:ℚ) - 1/2) * 2 ≤ 1)
        ∧ (-1 ≤ ((0:ℚ) - 1/2) * 2 ∧ ((0:ℚ) - 1/2) * 2 ≤ 1)
        ∧ (-1 ≤ ((0:ℚ) - 1/2) * 2 ∧ ((0:ℚ) - 1/2) * 2 ≤ 1)) :=
  normalize_branches "logreg" 0 0 0 (by norm_num) (by norm_num) (by norm_num)
    (by norm_num) (by norm_num) (by norm_num)

/-- C2 counterexample: for the unknown backbone kind "foo", the configuration
error is NOT raised before any tensor construction: the graph trace begins
with the input-pipeline tensor construction (`data` name scope, lines
244-269) and the configuration error comes only after it. -/
theorem unknown_model_error_after_data_tensors :
    trainGraphEvents "foo" =
      [GraphEvent.dataTensors, GraphEvent.configError "model name unknown: foo"]
    ∧ (trainGraphEvents "foo").head? = some GraphEvent.dataTensors := by
  constructor <;> decide

/-- C2 (amended): for every unknown backbone kind, `train` raises the
configuration error `"model name unknown: ..."` after the input-pipeline
tensors are constructed but before any model tensor is constructed. -/
theorem unknown_model_fails_before_model_tensors (model_name m : String)
    (h1 : model_name ≠ "logreg") (h2 : model_name ≠ "vgg")
    (h3 : model_name ≠ "resnet") :
    trainGraphEvents model_name =
      [GraphEvent.dataTensors,
       GraphEvent.configError ("model name unknown: " ++ model_name)]
    ∧ GraphEvent.modelTensors m ∉ trainGraphEvents model_name := by
  constructor <;> simp [trainGraphEvents, modelSection, h1, h2, h3]

theorem unknown_model_fails_before_model_tensors_witness :
    trainGraphEvents "foo" =
      [GraphEvent.dataTensors,
       GraphEvent.configError ("model name unknown: " ++ "foo")]
    ∧ GraphEvent.modelTensors "vgg" ∉ trainGraphEvents "foo" :=
  unknown_model_fails_before_model_tensors "foo" "vgg"
    (by decide) (by decide) (by decide)

/-- C9: the derived metric f1 equals 2*ppv*sens/(ppv+sens) computed from the
precision and recall metrics' current values at read time (also directly
after any accumulator update, with no separate f1 accumulator); when
ppv + sens = 0 the float division is 0/0, the not-a-number sentinel, and the
epoch scalar summary still records f1 as-is rather than failing. -/
theorem f1_nan_and_read_time_formula (p : PrecisionState) (r : RecallState)
    (ls ps : List Bool) (loss acc : ℚ)
    (hp1 : 0 ≤ p.tp) (hp2 : 0 ≤ p.fp) (hr1 : 0 ≤ r.tp) (hr2 : 0 ≤ r.fneg) :
    (p.value + r.value = 0 →
      f1 p.value r.value = none ∧ 2 * (p.value * r.value) = 0)
    ∧ (p.value + r.value ≠ 0 →
      f1 p.value r.value = some (2 * (p.value * r.value) / (p.value + r.value)))
    ∧ epochScalars p r loss acc =
        [("loss", some loss), ("acc", some acc), ("ppv", some p.value),
         ("sens", some r.value), ("f1", f1 p.value r.value)]
    ∧ f1 (p.update ls ps).value (r.update ls ps).value =
        floatDiv (2 * ((p.update ls ps).value * (r.update ls ps).value))
          ((p.update ls ps).value + (r.update ls ps).value) := by
  have hpv : 0 ≤ p.value := by
    unfold PrecisionState.value
    split
    · exact div_nonneg hp1 (by linarith)
    · exact le_refl 0
  have hrv : 0 ≤ r.value := by
    unfold RecallState.value
    split
    · exact div_nonneg hr1 (by linarith)
    · exact le_refl 0
  refine ⟨fun h0 => ⟨?_, ?_⟩, fun h0 => ?_, rfl, rfl⟩
  · simp [f1, floatDiv, h0]
  · have hp0 : p.value = 0 := by linarith
    simp [hp0]
  · simp [f1, floatDiv, h0]

theorem f1_nan_and_read_time_formula_witness :
    (demoP.value + demoR.value = 0 →
      f1 demoP.value demoR.value = none ∧ 2 * (demoP.value * demoR.value) = 0)
    ∧ (demoP.value + demoR.value ≠ 0 →
      f1 demoP.value demoR.value
        = some (2 * (demoP.value * demoR.value) / (demoP.value + demoR.value)))
    ∧ epochScalars demoP demoR 0 0 =
        [("loss", some 0), ("acc", some 0), ("ppv", some demoP.value),
         ("sens", some demoR.value), ("f1", f1 demoP.value demoR.value)]
    ∧ f1 (demoP.update [] []).value (demoR.update [] []).value =
        floatDiv (2 * ((demoP.update [] []).value * (demoR.update [] []).value))
          ((demoP.update [] []).value + (demoR.update [] []).value) :=
  f1_nan_and_read_time_formula demoP demoR [] [] 0 0
    (le_refl 0) (le_refl 0) (le_refl 0) (le_refl 0)

/-! ### Trainable-weight bookkeeping lemmas -/

theorem trainableWeights_append (l1 l2 : List Layer) :
    trainableWeights (l1 ++ l2) = trainableWeights l1 ++ trainableWeights l2 := by
  simp [trainableWeights, List.filter_append]

theorem trainableWeights_frozen (ls : List Layer) :
    trainableWeights (ls.map (fun l => { l with trainable := false })) = [] := by
  induction ls with
  | nil => rfl
  | cons a t ih => simpa [trainableWeights, List.filter_cons] using ih

theorem trainableWeights_unfrozen (ls : List Layer) :
    trainableWeights (ls.map (fun l => { l with trainable := true })) = wtsOf ls := by
  induction ls with
  | nil => rfl
  | cons a t ih => simpa [trainableWeights, wtsOf, List.filter_cons] using ih

theorem trainableWeights_single_true (head : Layer) (hhead : head.trainable = true) :
    trainableWeights [head] = head.wts := by
  simp [trainableWeights, List.filter_cons, hhead]

theorem wtsOf_append (l1 l2 : List Layer) :
    wtsOf (l1 ++ l2) = wtsOf l1 ++ wtsOf l2 := by
  simp [wtsOf]

theorem freeze_then_unfreeze (ls : List Layer) :
    (ls.map (fun l => { l with trainable := false })).map
        (fun l => { l with trainable := true })
      = ls.map (fun l => { l with trainable := true }) := by
  simp [List.map_map]

theorem map_freeze_take (ls : List Layer) (k : Nat) :
    (ls.map (fun l => { l with trainable := false })).take k
      = (ls.take k).map (fun l => { l with trainable := false }) := by
  simp [List.map_take]

theorem map_freeze_drop (ls : List Layer) (k : Nat) :
    (ls.map (fun l => { l with trainable := false })).drop k
      = (ls.drop k).map (fun l => { l with trainable := false }) := by
  simp [List.map_drop]

/-- The classifier gradient variable list is captured at line 362, while every
base layer is frozen: it holds exactly the head weights. -/
theorem buildOptim_clf_vars (layers : List Layer) (head : Layer) (L : Nat)
    (hhead : head.trainable = true) :
    (buildOptim layers head L).clf_vars = head.wts := by
  simp [buildOptim, trainableWeights_append, trainableWeights_frozen,
        trainableWeights_single_true head hhead]

/-- The fine-tune gradient variable list (line 376) holds the weights of the
last `L` base layers (none when `L = 0`) followed by the head weights. -/
theorem buildOptim_ft_vars (layers : List Layer) (head : Layer) (L : Nat)
    (hhead : head.trainable = true) :
    (buildOptim layers head L).finetune_vars =
      (if 0 < L then wtsOf (layers.drop (layers.length - L)) else []) ++ head.wts := by
  by_cases hL : 0 < L
  · simp only [buildOptim, if_pos hL]
    rw [map_freeze_take, map_freeze_drop, freeze_then_unfreeze, List.length_map,
        trainableWeights_append, trainableWeights_append, trainableWeights_frozen,
        trainableWeights_unfrozen, trainableWeights_single_true head hhead]
    simp
  · simp [buildOptim, hL, trainableWeights_append, trainableWeights_frozen,
          trainableWeights_single_true head hhead]

/-- C10: for every configuration, including finetune_layers > 0, the
classifier gradient variable list is exactly the head weights (it is captured
while all backbone layers are frozen, before the fine-tune unfreezing), so a
classifier-phase training step updates the head weights and leaves every
backbone weight unchanged. -/
theorem clf_step_updates_head_only (layers : List Layer) (head : Layer)
    (finetune_layers : Nat) (delta w : Nat → ℚ) (v : Nat)
    (hhead : head.trainable = true)
    (hnodup : (wtsOf layers ++ head.wts).Nodup) :
    (buildOptim layers head finetune_layers).clf_vars = head.wts
    ∧ (v ∈ wtsOf layers →
        applyGradients (buildOptim layers head finetune_layers).clf_vars delta w v = w v)
    ∧ (v ∈ head.wts →
        applyGradients (buildOptim layers head finetune_layers).clf_vars delta w v
          = w v + delta v) := by
  have hclf := buildOptim_clf_vars layers head finetune_layers hhead
  have hdisj : List.Disjoint (wtsOf layers) head.wts := (List.nodup_append.mp hnodup).2.2
  refine ⟨hclf, fun hv => ?_, fun hv => ?_⟩
  · have hnv : v ∉ head.wts := fun hv2 => hdisj hv hv2
    simp [applyGradients, hclf, hnv]
  · simp [applyGradients, hclf, hv]

theorem clf_step_updates_head_only_witness :
    (wtsOf demoLayers ++ demoHead.wts).Nodup
    ∧ ((buildOptim demoLayers demoHead 1).clf_vars = demoHead.wts
      ∧ (0 ∈ wtsOf demoLayers →
          applyGradients (buildOptim demoLayers demoHead 1).clf_vars
            (fun _ => 1) (fun _ => 0) 0 = 0)
      ∧ (0 ∈ demoHead.wts →
          applyGradients (buildOptim demoLayers demoHead 1).clf_vars
            (fun _ => 1) (fun _ => 0) 0 = 0 + 1)) :=
  ⟨by decide,
   clf_step_updates_head_only demoLayers demoHead 1 (fun _ => 1) (fun _ => 0) 0
     rfl (by decide)⟩

/-- C6: one fine-tune-phase training step leaves the weights of every
backbone layer beyond the last finetune_layers layers bit-identical, while
the weights of the last finetune_layers backbone layers and of the dense head
receive the gradient update (and hence change whenever the update is
nonzero). -/
theorem finetune_step_frame (layers : List Layer) (head : Layer) (L : Nat)
    (delta w : Nat → ℚ) (v : Nat)
    (hhead : head.trainable = true)
    (hnodup : (wtsOf layers ++ head.wts).Nodup) :
    (v ∈ wtsOf (layers.take (layers.length - L)) →
        applyGradients (buildOptim layers head L).finetune_vars delta w v = w v)
    ∧ (0 < L → v ∈ wtsOf (layers.drop (layers.length - L)) →
        applyGradients (buildOptim layers head L).finetune_vars delta w v = w v + delta v
        ∧ (delta v ≠ 0 →
            applyGradients (buildOptim layers head L).finetune_vars delta w v ≠ w v))
    ∧ (v ∈ head.wts →
        applyGradients (buildOptim layers head L).finetune_vars delta w v = w v + delta v
        ∧ (delta v ≠ 0 →
            applyGradients (buildOptim layers head L).finetune_vars delta w v ≠ w v)) := by
  have hft := buildOptim_ft_vars layers head L hhead
  have hsplit : wtsOf (layers.take (layers.length - L))
      ++ wtsOf (layers.drop (layers.length - L)) = wtsOf layers := by
    rw [← wtsOf_append, List.take_append_drop]
  rw [← hsplit] at hnodup
  have houter := List.nodup_append.mp (by rwa [List.append_assoc] at hnodup)
  have hchange : ∀ u, u ∈ (buildOptim layers head L).finetune_vars →
      applyGradients (buildOptim layers head L).finetune_vars delta w u = w u + delta u := by
    intro u hu
    simp [applyGradients, hu]
  have hne : ∀ u, u ∈ (buildOptim layers head L).finetune_vars → delta u ≠ 0 →
      applyGradients (buildOptim layers head L).finetune_vars delta w u ≠ w u := by
    intro u hu hd
    rw [hchange u hu]
    intro heq
    exact hd (by linarith)
  refine ⟨fun hv => ?_, fun hL hv => ?_, fun hv => ?_⟩
  · have hvBC : v ∉ wtsOf (layers.drop (layers.length - L)) ++ head.wts :=
      fun h2 => houter.2.2 hv h2
    have hvB : v ∉ wtsOf (layers.drop (layers.length - L)) :=
      fun h2 => hvBC (List.mem_append_left _ h2)
    have hvC : v ∉ head.wts := fun h2 => hvBC (List.mem_append_right _ h2)
    have hnv : v ∉ (buildOptim layers head L).finetune_vars := by
      rw [hft]
      by_cases hL : 0 < L <;> simp [hL, hvB, hvC]
    simp [applyGradients, hnv]
  · have hv2 : v ∈ (buildOptim layers head L).finetune_vars := by
      rw [hft, if_pos hL]
      exact List.mem_append_left _ hv
    exact ⟨hchange v hv2, hne v hv2⟩
  · have hv2 : v ∈ (buildOptim layers head L).finetune_vars := by
      rw [hft]
      exact List.mem_append_right _ hv
    exact ⟨hchange v hv2, hne v hv2⟩

theorem finetune_step_frame_witness :
    (wtsOf demoLayers ++ demoHead.wts).Nodup
    ∧ ((2 ∈ wtsOf (demoLayers.take (demoLayers.length - 1)) →
          applyGradients (buildOptim demoLayers demoHead 1).finetune_vars
            (fun _ => 1) (fun _ => 0) 2 = 0)
      ∧ (0 < 1 → 2 ∈ wtsOf (demoLayers.drop (demoLayers.length - 1)) →
          applyGradients (buildOptim demoLayers demoHead 1).finetune_vars
            (fun _ => 1) (fun _ => 0) 2 = 0 + 1
          ∧ ((1:ℚ) ≠ 0 →
              applyGradients (buildOptim demoLayers demoHead 1).finetune_vars
                (fun _ => 1) (fun _ => 0) 2 ≠ 0))
      ∧ (2 ∈ demoHead.wts →
          applyGradients (buildOptim demoLayers demoHead 1).finetune_vars
            (fun _ => 1) (fun _ => 0) 2 = 0 + 1
          ∧ ((1:ℚ) ≠ 0 →
              applyGradients (buildOptim demoLayers demoHead 1).finetune_vars
                (fun _ => 1) (fun _ => 0) 2 ≠ 0))) :=
  ⟨by decide,
   finetune_step_frame demoLayers demoHead 1 (fun _ => 1) (fun _ => 0) 2
     rfl (by decide)⟩

/-! ### Loop bookkeeping lemmas -/

theorem foldl_const {α : Type} {β : Type} (f : α → α) (l : List β) (s : α) :
    l.foldl (fun st _ => f st) s = f^[l.length] s := by
  induction l generalizing s with
  | nil => rfl
  | cons b t ih =>
    rw [List.foldl_cons, ih, List.length_cons]
    exact (Function.iterate_succ_apply f t.length s).symm

theorem foldl_trainBatch_epoch_saved (dyn : Dynamics) (vl : List Nat)
    (l : List Nat) (s : LoopState) :
    ((l.foldl (fun st bi => trainBatch dyn vl bi st) s).global_epoch = s.global_epoch)
    ∧ ((l.foldl (fun st bi => trainBatch dyn vl bi st) s).saved = s.saved) := by
  induction l generalizing s with
  | nil => exact ⟨rfl, rfl⟩
  | cons b t ih =>
    rw [List.foldl_cons]
    exact ih (trainBatch dyn vl b s)

theorem trainPass_global_epoch (cfg : LoopCfg) (dyn : Dynamics) (vl : List Nat)
    (s : LoopState) : (trainPass cfg dyn vl s).global_epoch = s.global_epoch :=
  (foldl_trainBatch_epoch_saved dyn vl (List.range cfg.num_train_batches) s).1

theorem trainPass_saved (cfg : LoopCfg) (dyn : Dynamics) (vl : List Nat)
    (s : LoopState) : (trainPass cfg dyn vl s).saved = s.saved :=
  (foldl_trainBatch_epoch_saved dyn vl (List.range cfg.num_train_batches) s).2

theorem foldl_valBatch_frame (dyn : Dynamics) (l : List Nat) (s : LoopState) :
    ((l.foldl (fun st vi => valBatch dyn vi st) s).weights = s.weights)
    ∧ ((l.foldl (fun st vi => valBatch dyn vi st) s).optState = s.optState)
    ∧ ((l.foldl (fun st vi => valBatch dyn vi st) s).global_step = s.global_step)
    ∧ ((l.foldl (fun st vi => valBatch dyn vi st) s).global_epoch = s.global_epoch)
    ∧ ((l.foldl (fun st vi => valBatch dyn vi st) s).saved = s.saved) := by
  induction l generalizing s with
  | nil => exact ⟨rfl, rfl, rfl, rfl, rfl⟩
  | cons b t ih =>
    rw [List.foldl_cons]
    exact ih (valBatch dyn b s)

theorem valPass_weights (cfg : LoopCfg) (dyn : Dynamics) (s : LoopState) :
    (valPass cfg dyn s).weights = s.weights :=
  (foldl_valBatch_frame dyn (List.range cfg.num_val_batches) s).1

theorem valPass_optState (cfg : LoopCfg) (dyn : Dynamics) (s : LoopState) :
    (valPass cfg dyn s).optState = s.optState :=
  (foldl_valBatch_frame dyn (List.range cfg.num_val_batches) s).2.1

theorem valPass_global_step (cfg : LoopCfg) (dyn : Dynamics) (s : LoopState) :
    (valPass cfg dyn s).global_step = s.global_step :=
  (foldl_valBatch_frame dyn (List.range cfg.num_val_batches) s).2.2.1

theorem valPass_global_epoch (cfg : LoopCfg) (dyn : Dynamics) (s : LoopState) :
    (valPass cfg dyn s).global_epoch = s.global_epoch :=
  (foldl_valBatch_frame dyn (List.range cfg.num_val_batches) s).2.2.2.1

theorem valPass_saved (cfg : LoopCfg) (dyn : Dynamics) (s : LoopState) :
    (valPass cfg dyn s).saved = s.saved :=
  (foldl_valBatch_frame dyn (List.range cfg.num_val_batches) s).2.2.2.2

theorem epochBody_global_epoch (cfg : LoopCfg) (dyn : Dynamics) (vl : List Nat)
    (s : LoopState) : (epochBody cfg dyn vl s).global_epoch = s.global_epoch + 1 := by
  unfold epochBody
  have h1 := trainPass_global_epoch cfg dyn vl s
  have h2 := valPass_global_epoch cfg dyn (trainPass cfg dyn vl s)
  by_cases hck : cfg.checkpoint <;> simp [hck, h1, h2]

theorem epochBody_saved (cfg : LoopCfg) (dyn : Dynamics) (vl : List Nat)
    (s : LoopState) (hck : cfg.checkpoint = true) :
    (epochBody cfg dyn vl s).saved
      = s.saved ++ [((epochBody cfg dyn vl s).global_step,
                     (epochBody cfg dyn vl s).global_epoch)] := by
  unfold epochBody
  have h1 := trainPass_saved cfg dyn vl s
  have h2 := valPass_saved cfg dyn (trainPass cfg dyn vl s)
  simp [hck, h1, h2]

theorem epochBody_last_checkpoint (cfg : LoopCfg) (dyn : Dynamics) (vl : List Nat)
    (s : LoopState) (hck : cfg.checkpoint = true) :
    (epochBody cfg dyn vl s).saved.getLast?
      = some ((epochBody cfg dyn vl s).global_step,
              (epochBody cfg dyn vl s).global_epoch) := by
  rw [epochBody_saved cfg dyn vl s hck]
  simp

theorem iterate_epochBody_global_epoch (cfg : LoopCfg) (dyn : Dynamics)
    (vl : List Nat) (n : Nat) (s : LoopState) :
    ((epochBody cfg dyn vl)^[n] s).global_epoch = s.global_epoch + n := by
  induction n with
  | zero => rfl
  | succ k ih =>
    rw [Function.iterate_succ_apply', epochBody_global_epoch, ih]
    omega

theorem runPhase_eq_iterate (cfg : LoopCfg) (dyn : Dynamics) (vl : List Nat)
    (n : Nat) (s : LoopState) :
    runPhase cfg dyn vl n s = (epochBody cfg dyn vl)^[n] s := by
  unfold runPhase
  rw [foldl_const, List.length_range']

theorem runPhase_global_epoch (cfg : LoopCfg) (dyn : Dynamics) (vl : List Nat)
    (n : Nat) (s : LoopState) :
    (runPhase cfg dyn vl n s).global_epoch = s.global_epoch + n := by
  rw [runPhase_eq_iterate, iterate_epochBody_global_epoch]

theorem runPhase_last_checkpoint (cfg : LoopCfg) (dyn : Dynamics) (vl : List Nat)
    (n : Nat) (s : LoopState) (hck : cfg.checkpoint = true) (hn : 1 ≤ n) :
    (runPhase cfg dyn vl n s).saved.getLast?
      = some ((runPhase cfg dyn vl n s).global_step,
              (runPhase cfg dyn vl n s).global_epoch) := by
  obtain ⟨k, rfl⟩ : ∃ k, n = k + 1 := ⟨n - 1, by omega⟩
  rw [runPhase_eq_iterate, Function.iterate_succ_apply']
  exact epochBody_last_checkpoint cfg dyn vl _ hck

/-! ### Claim theorems about the controller loop -/

/-- C1 (code bug at line 461): resuming after 1 completed epoch with
clf_epochs = 2 does NOT run only the 1 remaining classifier epoch.
`range(global_epoch, global_epoch+epochs)` always yields `epochs` iterations,
so the resumed run executes 2 further classifier epochs (final global_epoch
3), for 1 + 2 = 3 classifier epochs in total instead of the configured 2. -/
theorem resumed_run_reruns_completed_epochs :
    c1AfterOne.global_epoch = 1
    ∧ c1AfterOne.saved.getLast? = some (c1AfterOne.global_step, 1)
    ∧ (trainLoop c1Cfg zeroDyn [] [] c1Resumed).global_epoch = 3
    ∧ 1 + ((trainLoop c1Cfg zeroDyn [] [] c1Resumed).global_epoch
            - c1Resumed.global_epoch) ≠ c1Cfg.clf_epochs := by
  have h1 : c1AfterOne.global_epoch = 1 := by
    unfold c1AfterOne
    rw [epochBody_global_epoch]
    rfl
  have hres : c1Resumed.global_epoch = 1 := h1
  have h3 : (trainLoop c1Cfg zeroDyn [] [] c1Resumed).global_epoch = 3 := by
    unfold trainLoop
    rw [runPhase_global_epoch, runPhase_global_epoch, hres]
    rfl
  refine ⟨h1, ?_, h3, ?_⟩
  · have h2 := epochBody_last_checkpoint c1Cfg zeroDyn []
      (freshState zeroW zeroW) rfl
    rw [show (epochBody c1Cfg zeroDyn [] (freshState zeroW zeroW)) = c1AfterOne
          from rfl, h1] at h2
    exact h2
  · rw [h3, hres]
    decide

/-- C7: the validation pass is forward-only: it leaves the model weights,
the optimizer state, global_step, global_epoch and the checkpoint record
unchanged (it mutates only the metric accumulators); its result does not
depend on the training-mode (learning_phase = 1) forward behavior; and the
validation pipeline maps `preprocess` with augmentation disabled, so its
output is `normalize` of the decoded image, independent of the random flip
draws. -/
theorem val_pass_forward_only (cfg : LoopCfg) (dyn dyn2 : Dynamics)
    (s : LoopState) (decode : String → Image) (model_name fn : String)
    (ud lr : Bool)
    (hdyn : ∀ w i, dyn.batchMetrics w false i = dyn2.batchMetrics w false i) :
    (valPass cfg dyn s).weights = s.weights
    ∧ (valPass cfg dyn s).optState = s.optState
    ∧ (valPass cfg dyn s).global_step = s.global_step
    ∧ (valPass cfg dyn s).global_epoch = s.global_epoch
    ∧ (valPass cfg dyn s).saved = s.saved
    ∧ valPass cfg dyn s = valPass cfg dyn2 s
    ∧ valDatasetMap decode model_name fn ud lr = normalize (decode fn) model_name := by
  have hcongr : ∀ (l : List Nat) (s0 : LoopState),
      l.foldl (fun st vi => valBatch dyn vi st) s0
        = l.foldl (fun st vi => valBatch dyn2 vi st) s0 := by
    intro l
    induction l with
    | nil => intro s0; rfl
    | cons b t ih =>
      intro s0
      rw [List.foldl_cons, List.foldl_cons]
      have hb : valBatch dyn b s0 = valBatch dyn2 b s0 := by
        unfold valBatch
        rw [hdyn]
      rw [hb]
      exact ih (valBatch dyn2 b s0)
  refine ⟨valPass_weights cfg dyn s, valPass_optState cfg dyn s,
    valPass_global_step cfg dyn s, valPass_global_epoch cfg dyn s,
    valPass_saved cfg dyn s, ?_, rfl⟩
  unfold valPass
  rw [hcongr]

/-- C8: with checkpointing enabled, `global_epoch` is incremented before the
`(global_step, global_epoch)` pickle is written; after `n ≥ 1` epochs from a
fresh start the last persisted tuple is exactly `(global_step, n)` where `n`
is the number of completed epochs, and resuming restores exactly that
persisted tuple. -/
theorem checkpoint_roundtrip (cfg : LoopCfg) (dyn : Dynamics) (vl : List Nat)
    (s t : LoopState) (n : Nat) (w o : Nat → ℚ)
    (hck : cfg.checkpoint = true) (hn : 1 ≤ n) (h0 : s.global_epoch = 0) :
    (epochBody cfg dyn vl s).saved
      = s.saved ++ [((epochBody cfg dyn vl s).global_step, s.global_epoch + 1)]
    ∧ (runPhase cfg dyn vl n s).global_epoch = n
    ∧ (runPhase cfg dyn vl n s).saved.getLast?
        = some ((runPhase cfg dyn vl n s).global_step, n)
    ∧ (resume w o ((runPhase cfg dyn vl n s).global_step, n) t).global_step
        = (runPhase cfg dyn vl n s).global_step
    ∧ (resume w o ((runPhase cfg dyn vl n s).global_step, n) t).global_epoch = n := by
  have hge : (runPhase cfg dyn vl n s).global_epoch = n := by
    rw [runPhase_global_epoch, h0]
    omega
  refine ⟨?_, hge, ?_, rfl, rfl⟩
  · rw [epochBody_saved cfg dyn vl s hck, epochBody_global_epoch]
  · rw [runPhase_last_checkpoint cfg dyn vl n s hck hn, hge]

theorem val_pass_forward_only_witness :
    (valPass demoCfg zeroDyn (freshState zeroW zeroW)).weights = zeroW
    ∧ (valPass demoCfg zeroDyn (freshState zeroW zeroW)).optState = zeroW
    ∧ (valPass demoCfg zeroDyn (freshState zeroW zeroW)).global_step = 0
    ∧ (valPass demoCfg zeroDyn (freshState zeroW zeroW)).global_epoch = 0
    ∧ (valPass demoCfg zeroDyn (freshState zeroW zeroW)).saved = []
    ∧ valPass demoCfg zeroDyn (freshState zeroW zeroW)
        = valPass demoCfg zeroDyn (freshState zeroW zeroW)
    ∧ valDatasetMap (fun _ => []) "logreg" "a" true true = normalize [] "logreg" :=
  val_pass_forward_only demoCfg zeroDyn zeroDyn (freshState zeroW zeroW)
    (fun _ => []) "logreg" "a" true true (fun _ _ => rfl)

theorem checkpoint_roundtrip_witness :
    (epochBody demoCfg zeroDyn [] (freshState zeroW zeroW)).saved
      = [] ++ [((epochBody demoCfg zeroDyn [] (freshState zeroW zeroW)).global_step, 0 + 1)]
    ∧ (runPhase demoCfg zeroDyn [] 1 (freshState zeroW zeroW)).global_epoch = 1
    ∧ (runPhase demoCfg zeroDyn [] 1 (freshState zeroW zeroW)).saved.getLast?
        = some ((runPhase demoCfg zeroDyn [] 1 (freshState zeroW zeroW)).global_step, 1)
    ∧ (resume zeroW zeroW
        ((runPhase demoCfg zeroDyn [] 1 (freshState zeroW zeroW)).global_step, 1)
        (freshState zeroW zeroW)).global_step
      = (runPhase demoCfg zeroDyn [] 1 (freshState zeroW zeroW)).global_step
    ∧ (resume zeroW zeroW
        ((runPhase demoCfg zeroDyn [] 1 (freshState zeroW zeroW)).global_step, 1)
        (freshState zeroW zeroW)).global_epoch = 1 :=
  checkpoint_roundtrip demoCfg zeroDyn [] (freshState zeroW zeroW)
    (freshState zeroW zeroW) 1 zeroW zeroW rfl (le_refl 1) rfl

end TrainMitoses
